import Mathlib

/-!
Verification of the `pearson3curve` hydrologic frequency-analysis package.

The Python sources are shallowly embedded: the `Data` record-set class
(`src/pearson3curve/data.py`, identical to `DataSequence` in
`src/pearson3curve/__init__.py`) becomes a Lean structure with explicit
state-passing; values are modelled as rationals; methods that mutate in
place and may raise become functions returning the post-call state paired
with an optional error, so that partially-applied mutations made before a
raise stay observable.  The moment estimator (`fitting.py:get_moments`),
curve fitter (`fitting.py:get_fitted_moments`) and P-III `Curve`
(`curve.py`) are embedded over the reals; the external SciPy special
functions (`pearson3.ppf` / `pearson3.cdf`) and the nonlinear solver
(`scipy.optimize.curve_fit`) are parameters of the embedding.
-/

namespace Pearson3Curve

/-- The Python exception kinds the package can raise or propagate.
`valueError` and `indexError` are raised by `data.py`; `runtimeError` is
what `scipy.optimize.curve_fit` raises on convergence failure (propagated
untouched by `fitting.py`); `fitError` is the error kind the specification
postulates — no code in the repository constructs it. -/
inductive PyErr where
  | valueError (msg : String)
  | indexError (msg : String)
  | runtimeError (msg : String)
  | fitError (msg : String)
  deriving DecidableEq, Repr

/-- `np.sort(x)[::-1]`: sort ascending, then reverse — i.e. the descending
sort of the list. -/
def sortDesc (l : List ℚ) : List ℚ :=
  (l.insertionSort (· ≤ ·)).reverse

/-- The state of a `Data` (`data.py`) / `DataSequence` (`__init__.py`)
object: the fields `_observed_data`, `_data`, `_extreme_data`,
`_ordinary_data`, `_period_length` and `_empirical_prob`. -/
structure Data where
  observed_data : List ℚ
  data : List ℚ
  extreme_data : List ℚ
  ordinary_data : List ℚ
  period_length : ℕ
  empirical_prob_override : Option (List ℚ)
  deriving DecidableEq, Repr

/-- `Data.__init__(observed_data)`: sort descending, empty extreme
partition, the whole sequence ordinary, period length = input length, no
probability override. -/
def Data.init (observed_data : List ℚ) : Data :=
  let d := sortDesc observed_data
  { observed_data := observed_data
    data := d
    extreme_data := []
    ordinary_data := d
    period_length := observed_data.length
    empirical_prob_override := none }

/-- `Data.set_history_data(history_data, period_length, extreme_num=None)`.
Returns the post-call state together with the raised exception, if any.
Mirrors the statement order of the Python method: the period length is
stored *before* the `extreme_num` validation, so the state returned with
the second `ValueError` already carries the new period length. -/
def Data.set_history_data (s : Data) (history_data : List ℚ)
    (period_length : ℕ) (extreme_num : Option ℕ := none) :
    Data × Option PyErr :=
  if period_length < s.observed_data.length + history_data.length then
    (s, some (.valueError "The period length should not be less than the sum of the lengths of the observed data and the history data."))
  else
    let s := { s with period_length := period_length }
    let en := extreme_num.getD history_data.length
    if en < history_data.length then
      (s, some (.valueError "The number of extreme data should not be less than the length of the history data."))
    else
      let d := sortDesc (s.observed_data ++ history_data)
      ({ s with data := d, extreme_data := d.take en,
                ordinary_data := d.drop en }, none)

/-- The `Data.extreme_prob` property: override slice when present,
otherwise `(np.arange(l) + 1) / (period_length + 1)` for the `l` extreme
records (empty when there are none). -/
def Data.extreme_prob (s : Data) : List ℚ :=
  match s.empirical_prob_override with
  | some ep => ep.take s.extreme_data.length
  | none =>
    if s.extreme_data.length = 0 then []
    else (List.range s.extreme_data.length).map
      (fun i : ℕ => ((i : ℚ) + 1) / ((s.period_length : ℚ) + 1))

/-- The `Data.ordinary_prob` property: override slice when present;
whole-period Weibull positions when the extreme partition is empty;
otherwise the ordinary plotting positions rescaled into the probability
mass above the last extreme probability `mp`. -/
def Data.ordinary_prob (s : Data) : List ℚ :=
  match s.empirical_prob_override with
  | some ep => ep.drop s.extreme_data.length
  | none =>
    if s.extreme_data.length = 0 then
      (List.range s.period_length).map
        (fun i : ℕ => ((i : ℚ) + 1) / ((s.period_length : ℚ) + 1))
    else
      let mp := s.extreme_prob.getLastD 0
      let l := s.ordinary_data.length
      (List.range l).map
        (fun j : ℕ => mp + (1 - mp) * ((j : ℚ) + 1) / ((l : ℚ) + 1))

/-- The `Data.empirical_prob` property: the override when present,
otherwise extreme probabilities followed by ordinary probabilities. -/
def Data.empirical_prob (s : Data) : List ℚ :=
  match s.empirical_prob_override with
  | some ep => ep
  | none => s.extreme_prob ++ s.ordinary_prob

/-! ## Moment estimator (`fitting.py:get_moments`) -/

/-- The sum of a list of record values, taken in the reals (Python sums
the float values). -/
noncomputable def sumR (l : List ℚ) : ℝ :=
  (l.map (fun x => (x : ℝ))).sum

/-- `sum((x - c) ** k for x in l)`. -/
noncomputable def sumCentered (l : List ℚ) (c : ℝ) (k : ℕ) : ℝ :=
  (l.map (fun x => ((x : ℝ) - c) ^ k)).sum

/-- `fitting.py:get_moments`.  The branch without extreme data uses the
plain estimators `statistics.mean`, `scipy.stats.variation(·, ddof=1)`
(sample standard deviation over the mean) and `scipy.stats.skew(·,
bias=False)` (the adjusted Fisher–Pearson coefficient
`sqrt(n*(n-1))/(n-2) * m3 / m2^(3/2)` with central moments `m2`, `m3`);
the branch with extreme data uses the period-weighted formulas with
weight `r`. -/
noncomputable def get_moments (s : Data) : ℝ × ℝ × ℝ :=
  if s.extreme_data.length = 0 then
    let n : ℝ := s.data.length
    let mean := sumR s.data / n
    let variance := Real.sqrt (sumCentered s.data mean 2 / (n - 1)) / mean
    let m2 := sumCentered s.data mean 2 / n
    let m3 := sumCentered s.data mean 3 / n
    let skewness := Real.sqrt (n * (n - 1)) / (n - 2) * (m3 / m2 ^ ((3 : ℝ) / 2))
    (mean, variance, skewness)
  else
    let n : ℝ := s.period_length
    let r : ℝ := (n - s.extreme_data.length) / s.ordinary_data.length
    let mean := (sumR s.extreme_data + r * sumR s.ordinary_data) / n
    let variance :=
      Real.sqrt ((sumCentered s.extreme_data mean 2
          + r * sumCentered s.ordinary_data mean 2) / (n - 1)) / mean
    let skewness :=
      n * (sumCentered s.extreme_data mean 3
          + r * sumCentered s.ordinary_data mean 3) /
        ((n - 1) * (n - 2) * mean ^ 3 * variance ^ 3)
    (mean, variance, skewness)

/-! ## Curve (`curve.py`, identical to the `Curve` class in `__init__.py`)

`pearson3.ppf` and `pearson3.cdf` are SciPy special functions external to
the repository; the embedding takes them as parameters `ppf` and `cdf`,
with `ppf q cs` standing for `pearson3.ppf(q, cs)` and `cdf x cs` for
`pearson3.cdf(x, cs)`. -/

/-- The `Curve` value object: moments `ex`, `cv`, `cs`. -/
structure Curve where
  ex : ℝ
  cv : ℝ
  cs : ℝ

/-- `Curve.get_value_from_prob(prob)`:
`(pearson3.ppf(1 - prob, cs) * cv + 1) * ex`. -/
noncomputable def Curve.get_value_from_prob (ppf : ℝ → ℝ → ℝ) (c : Curve) (prob : ℝ) : ℝ :=
  (ppf (1 - prob) c.cs * c.cv + 1) * c.ex

/-- `Curve.get_prob_from_value(value)`:
`1 - pearson3.cdf((value / ex - 1) / cv, cs)`. -/
noncomputable def Curve.get_prob_from_value (cdf : ℝ → ℝ → ℝ) (c : Curve) (value : ℝ) : ℝ :=
  1 - cdf ((value / c.ex - 1) / c.cv) c.cs

/-! ## Curve fitter (`fitting.py:get_fitted_moments`) -/

/-- The external nonlinear least-squares solver
`scipy.optimize.curve_fit(f, xdata, ydata, p0)[0]`: given the model (as a
function of the abscissa and the parameter vector), the xdata, the ydata
and the initial guess `p0`, it returns the optimal parameter vector, or
fails with the `RuntimeError` diagnostic SciPy raises when it does not
converge. -/
def Solver : Type :=
  (ℝ → List ℝ → ℝ) → List ℝ → List ℝ → List ℝ → Except PyErr (List ℝ)

/-- The local `p3_curve` model inside `get_fitted_moments`. -/
noncomputable def p3_curve (ppf : ℝ → ℝ → ℝ) (prob ex cv cs : ℝ) : ℝ :=
  (ppf (1 - prob) cs * cv + 1) * ex

/-- `fitting.py:get_fitted_moments`.  Four branches selected by
`( sv_ratio is None, fit_ex)`; each hands `p3_curve` (with the fixed
parameters closed over) to `curve_fit` together with the record set's
empirical probabilities, its data and the moment estimates as the initial
guess, then unpacks the optimal parameters.  The Python list unpacking
`[ex, cv, cs] = popt` of a wrong-sized vector would raise a `ValueError`;
the solver's own exceptions propagate untouched — the function has no
exception handler. -/
noncomputable def get_fitted_moments (curve_fit : Solver) (ppf : ℝ → ℝ → ℝ)
    (s : Data) ( sv_ratio : Option ℝ := none) (fit_ex : Bool := true)
    (moments : Option (ℝ × ℝ × ℝ) := none) : Except PyErr (ℝ × ℝ × ℝ) :=
  let m := match moments with
    | none => get_moments s
    | some m => m
  let m_ex := m.1
  let m_cv := m.2.1
  let m_cs := m.2.2
  let xdata := s.empirical_prob.map (fun x => (x : ℝ))
  let ydata := s.data.map (fun x => (x : ℝ))
  match sv_ratio with
  | none =>
    if fit_ex then
      match curve_fit
          (fun prob p => p3_curve ppf prob (p.getD 0 0) (p.getD 1 0) (p.getD 2 0))
          xdata ydata [m_ex, m_cv, m_cs] with
      | .error e => .error e
      | .ok [ex, cv, cs] => .ok (ex, cv, cs)
      | .ok _ => .error (.valueError "cannot unpack the optimal parameters")
    else
      match curve_fit
          (fun prob p => p3_curve ppf prob m_ex (p.getD 0 0) (p.getD 1 0))
          xdata ydata [m_cv, m_cs] with
      | .error e => .error e
      | .ok [cv, cs] => .ok (m_ex, cv, cs)
      | .ok _ => .error (.valueError "cannot unpack the optimal parameters")
  | some sv =>
    if fit_ex then
      match curve_fit
          (fun prob p => p3_curve ppf prob (p.getD 0 0) (p.getD 1 0)
            ((p.getD 1 0) * sv))
          xdata ydata [m_ex, m_cv] with
      | .error e => .error e
      | .ok [ex, cv] => .ok (ex, cv, cv * sv)
      | .ok _ => .error (.valueError "cannot unpack the optimal parameters")
    else
      match curve_fit
          (fun prob p => p3_curve ppf prob m_ex (p.getD 0 0) ((p.getD 0 0) * sv))
          xdata ydata [m_cv] with
      | .error e => .error e
      | .ok [cv] => .ok (m_ex, cv, cv * sv)
      | .ok _ => .error (.valueError "cannot unpack the optimal parameters")

example : (Data.init [1, 2, 3]).data = [3, 2, 1] := by decide

example : (Data.init [1, 2, 3]).ordinary_prob = [1/4, 1/2, 3/4] := by
  norm_num [Data.init, Data.ordinary_prob, sortDesc, List.insertionSort,
    List.orderedInsert, List.range_succ]

example :
    ((Data.init [1, 2, 3]).set_history_data [6] 6).2 = none ∧
    ((Data.init [1, 2, 3]).set_history_data [6] 6).1.data = [6, 3, 2, 1] ∧
    ((Data.init [1, 2, 3]).set_history_data [6] 6).1.extreme_data = [6] ∧
    ((Data.init [1, 2, 3]).set_history_data [6] 6).1.ordinary_data = [3, 2, 1] := by
  decide

example :
    ((Data.init [1, 2, 3]).set_history_data [10] 9).1.extreme_prob = [1/10] ∧
    ((Data.init [1, 2, 3]).set_history_data [10] 9).1.ordinary_prob =
      [13/40, 11/20, 31/40] := by
  norm_num [Data.init, Data.set_history_data, Data.extreme_prob,
    Data.ordinary_prob, sortDesc, List.insertionSort, List.orderedInsert,
    List.range_succ]

/-! ## Shared fixtures and helper lemmas -/

/-- `Data([1, 2, 3])` followed by `set_history_data([6], 6)`: the record
set of the repository's own test fixture, with one historical flood. -/
def dEx : Data := ((Data.init [1, 2, 3]).set_history_data [6] 6).1

/-- `Data([1, 2, 3])` followed by `set_history_data([6, 7], 5)`: a record
set carrying an earlier historical batch of two records. -/
def dHist : Data := ((Data.init [1, 2, 3]).set_history_data [6, 7] 5).1

theorem getD_range_map (n i : ℕ) (f : ℕ → ℚ) (h : i < n) :
    ((List.range n).map f).getD i 0 = f i := by
  rw [List.getD_eq_getElem?_getD, List.getElem?_map, List.getElem?_range h]
  rfl

theorem getLastD_range_map (n : ℕ) (f : ℕ → ℚ) (h : n ≠ 0) :
    ((List.range n).map f).getLastD 0 = f (n - 1) := by
  rw [List.getLastD_eq_getLast?, List.getLast?_eq_getElem?]
  simp only [List.length_map, List.length_range]
  rw [List.getElem?_map, List.getElem?_range (by omega)]
  rfl

theorem sortDesc_sorted (l : List ℚ) : (sortDesc l).Sorted (· ≥ ·) :=
  List.pairwise_reverse.mpr (List.sorted_insertionSort (· ≤ ·) l)

theorem sortDesc_length (l : List ℚ) : (sortDesc l).length = l.length := by
  rw [sortDesc, List.length_reverse, List.length_insertionSort]

/-! ## The claims -/

/-- C3: for every curve with non-degenerate `ex` and `cv`, and for every
probability `p` in the open interval `(0, 1)`, composing the quantile and
the complementary-CDF operation round-trips: as long as the external
P-III special functions satisfy `cdf (ppf q cs) cs = q` on `(0, 1)` (the
claim's proviso that `cs` keeps the variate inside the support of the
gamma family), `get_prob_from_value (get_value_from_prob p) = p`. -/
theorem C3_round_trip (ppf cdf : ℝ → ℝ → ℝ) (c : Curve) (p : ℝ)
    (hex : c.ex ≠ 0) (hcv : c.cv ≠ 0)
    (hinv : ∀ q, 0 < q → q < 1 → cdf (ppf q c.cs) c.cs = q)
    (hp0 : 0 < p) (hp1 : p < 1) :
    c.get_prob_from_value cdf (c.get_value_from_prob ppf p) = p := by
  unfold Curve.get_prob_from_value Curve.get_value_from_prob
  have h1 : ((ppf (1 - p) c.cs * c.cv + 1) * c.ex / c.ex - 1) / c.cv =
      ppf (1 - p) c.cs := by
    field_simp
  rw [h1, hinv (1 - p) (by linarith) (by linarith)]
  ring

/-- Witness for C3 at `Curve(1, 1, 0)`, `p = 1/2`, with the identity pair
standing in for the external `ppf`/`cdf`. -/
theorem C3_witness :
    (Curve.mk 1 1 0).get_prob_from_value (fun x _ => x)
      ((Curve.mk 1 1 0).get_value_from_prob (fun x _ => x) (1/2)) = 1/2 :=
  C3_round_trip (fun x _ => x) (fun x _ => x) (Curve.mk 1 1 0) (1/2)
    (by norm_num) (by norm_num) (fun q _ _ => rfl) (by norm_num) (by norm_num)

/-- C9: when `set_history_data` passes the period-length check but raises
because the explicit `extreme_num` is smaller than the historical batch,
the state after the raise already carries the new period length while the
sorted data and both partitions keep their previous contents. -/
theorem C9_partial_mutation (s : Data) (hist : List ℚ) (pl en : ℕ)
    (hpl : s.observed_data.length + hist.length ≤ pl)
    (hen : en < hist.length) :
    (s.set_history_data hist pl (some en)).2 = some (.valueError
      "The number of extreme data should not be less than the length of the history data.") ∧
    (s.set_history_data hist pl (some en)).1.period_length = pl ∧
    (s.set_history_data hist pl (some en)).1.data = s.data ∧
    (s.set_history_data hist pl (some en)).1.extreme_data = s.extreme_data ∧
    (s.set_history_data hist pl (some en)).1.ordinary_data = s.ordinary_data := by
  have h1 : ¬ pl < s.observed_data.length + hist.length := by omega
  simp [Data.set_history_data, h1, hen]

/-- Witness for C9: `Data([1, 2, 3])`, then
`set_history_data([6], 6, extreme_num=0)`. -/
theorem C9_witness :
    ((Data.init [1, 2, 3]).set_history_data [6] 6 (some 0)).2 = some (.valueError
      "The number of extreme data should not be less than the length of the history data.") ∧
    ((Data.init [1, 2, 3]).set_history_data [6] 6 (some 0)).1.period_length = 6 ∧
    ((Data.init [1, 2, 3]).set_history_data [6] 6 (some 0)).1.data =
      (Data.init [1, 2, 3]).data ∧
    ((Data.init [1, 2, 3]).set_history_data [6] 6 (some 0)).1.extreme_data =
      (Data.init [1, 2, 3]).extreme_data ∧
    ((Data.init [1, 2, 3]).set_history_data [6] 6 (some 0)).1.ordinary_data =
      (Data.init [1, 2, 3]).ordinary_data :=
  C9_partial_mutation (Data.init [1, 2, 3]) [6] 6 0 (by decide) (by decide)

/-- C6: every successful `set_history_data` call recomputes the sorted
data from the immutable `observed` sequence and the call's own historical
batch alone — previous batches leave no trace — and leaves `observed`
unchanged. -/
theorem C6_history_replaces (s : Data) (hist : List ℚ) (pl : ℕ)
    (en : Option ℕ)
    (hsucc : (s.set_history_data hist pl en).2 = none) :
    (s.set_history_data hist pl en).1.data =
      sortDesc (s.observed_data ++ hist) ∧
    (s.set_history_data hist pl en).1.observed_data = s.observed_data := by
  by_cases h1 : pl < s.observed_data.length + hist.length
  · simp [Data.set_history_data, h1] at hsucc
  · by_cases h2 : en.getD hist.length < hist.length
    · simp [Data.set_history_data, h1, h2] at hsucc
    · simp [Data.set_history_data, h1, h2]

/-- Witness for C6: re-attaching `[8]` to the record set already carrying
the batch `[6, 7]` rebuilds the data from `[1, 2, 3] ++ [8]` only. -/
theorem C6_witness :
    (dHist.set_history_data [8] 9).1.data =
      sortDesc (dHist.observed_data ++ [8]) ∧
    (dHist.set_history_data [8] 9).1.observed_data = dHist.observed_data :=
  C6_history_replaces dHist [8] 9 none (by decide)

/-- C7 counterexample: the constructor performs no validation at all — it
is a total function, and on the empty observed sequence it returns a
normal record set (empty data, period length 0) instead of failing. -/
theorem C7_counterexample :
    (Data.init []).data = [] ∧ (Data.init []).period_length = 0 := by
  decide

/-- C7 as amended: constructing a record set from an empty observed
sequence succeeds, yielding the state with empty data and partitions,
period length 0 and no probability override; no validation error is
raised (degenerate inputs only fail downstream). -/
theorem C7_empty_init_succeeds :
    Data.init [] =
      { observed_data := [], data := [], extreme_data := [],
        ordinary_data := [], period_length := 0,
        empirical_prob_override := none } := by
  decide

/-- A `curve_fit` run that fails: the solver raises the given error
(SciPy raises `RuntimeError` when the least-squares iteration does not
converge). -/
def failingSolver (e : PyErr) : Solver := fun _ _ _ _ => .error e

/-- Whether an error is the `FitError` kind postulated by the
specification. -/
def PyErr.isFitError : PyErr → Bool
  | .fitError _ => true
  | _ => false

/-- C8 counterexample: when the solver fails, `get_fitted_moments`
surfaces the solver's own `RuntimeError` unchanged — the error that comes
back is not of the `FitError` kind, because no code in the repository
constructs or wraps one. -/
theorem C8_counterexample :
    get_fitted_moments
        (failingSolver (.runtimeError "Optimal parameters not found"))
        (fun q _ => q) (Data.init [1, 2, 3]) none true (some (1, 1, 1)) =
      .error (.runtimeError "Optimal parameters not found") ∧
    (PyErr.runtimeError "Optimal parameters not found").isFitError = false := by
  constructor
  · simp [get_fitted_moments, failingSolver]
  · rfl

/-- C8 as amended: for every record set, fitting configuration and
initial moments, when the underlying solver fails, `get_fitted_moments`
propagates the solver's exception verbatim — the failure is not silently
swallowed, but neither is it re-raised as a distinct `FitError`; the
function has no exception handling at all. -/
theorem C8_solver_error_propagates (e : PyErr) (ppf : ℝ → ℝ → ℝ) (s : Data)
    ( sv_ratio : Option ℝ) (fit_ex : Bool)
    (moments : Option (ℝ × ℝ × ℝ)) :
    get_fitted_moments (failingSolver e) ppf s sv_ratio fit_ex moments =
      .error e := by
  cases sv_ratio <;> cases fit_ex <;>
    simp [get_fitted_moments, failingSolver]

/-- The record-set invariant of the specification: the extreme partition
followed by the ordinary partition is the sorted data, the data is sorted
descending, and the period length covers the data. -/
def Data.Invariant (s : Data) : Prop :=
  s.extreme_data ++ s.ordinary_data = s.data ∧
  s.data.Sorted (· ≥ ·) ∧
  s.data.length ≤ s.period_length

/-- C4 counterexample: starting from `Data([1, 2, 3])` with the batch
`[6, 7]` attached (`period_length = 5`), the call
`set_history_data([6], 4, extreme_num=0)` passes the period-length check,
stores the new period length 4, and only then raises — leaving a state
whose 5 sorted records exceed its period length, so the invariant
`period_length >= len(all_sorted)` does not survive every raising call. -/
theorem C4_counterexample :
    (dHist.set_history_data [6] 4 (some 0)).2.isSome = true ∧
    (dHist.set_history_data [6] 4 (some 0)).1.data.length = 5 ∧
    (dHist.set_history_data [6] 4 (some 0)).1.period_length = 4 := by
  decide

/-- C4 as amended: the partition equation and descending sortedness hold
after construction and after every `set_history_data` call, raising or
not — the pre-state is only assumed to satisfy those two conjuncts, so
the statement iterates through call sequences that contain raising
calls; the bound `period_length >= len(all_sorted)` holds after
construction and after every call that returns normally (a call that
raises on the `extreme_num` check may leave `period_length` below the
data length). -/
theorem C4_invariant_amended (obs hist : List ℚ) (pl : ℕ) (en : Option ℕ)
    (s : Data)
    (hcat : s.extreme_data ++ s.ordinary_data = s.data)
    (hsort : s.data.Sorted (· ≥ ·)) :
    (Data.init obs).Invariant ∧
    ((s.set_history_data hist pl en).1.extreme_data ++
        (s.set_history_data hist pl en).1.ordinary_data =
      (s.set_history_data hist pl en).1.data ∧
      (s.set_history_data hist pl en).1.data.Sorted (· ≥ ·)) ∧
    ((s.set_history_data hist pl en).2 = none →
      (s.set_history_data hist pl en).1.Invariant) := by
  refine ⟨⟨by simp [Data.init], by simp [Data.init, sortDesc_sorted],
    by simp [Data.init, sortDesc_length]⟩, ?_⟩
  by_cases h1 : pl < s.observed_data.length + hist.length
  · simp only [Data.set_history_data, if_pos h1]
    exact ⟨⟨hcat, hsort⟩, by simp⟩
  · by_cases h2 : en.getD hist.length < hist.length
    · simp only [Data.set_history_data, if_neg h1, if_pos h2]
      exact ⟨⟨hcat, hsort⟩, by simp⟩
    · simp only [Data.set_history_data, if_neg h1, if_neg h2]
      refine ⟨⟨List.take_append_drop _ _, sortDesc_sorted _⟩, fun _ => ?_⟩
      refine ⟨List.take_append_drop _ _, sortDesc_sorted _, ?_⟩
      show (sortDesc (s.observed_data ++ hist)).length ≤ pl
      rw [sortDesc_length, List.length_append]
      omega

/-- Witness for C4 (amended) at `Data([1, 2, 3])` and the successful call
`set_history_data([6], 6)`. -/
theorem C4_witness :
    (Data.init [1, 2, 3]).Invariant ∧
    (((Data.init [1, 2, 3]).set_history_data [6] 6).1.extreme_data ++
        ((Data.init [1, 2, 3]).set_history_data [6] 6).1.ordinary_data =
      ((Data.init [1, 2, 3]).set_history_data [6] 6).1.data ∧
      ((Data.init [1, 2, 3]).set_history_data [6] 6).1.data.Sorted (· ≥ ·)) ∧
    (((Data.init [1, 2, 3]).set_history_data [6] 6).2 = none →
      ((Data.init [1, 2, 3]).set_history_data [6] 6).1.Invariant) :=
  C4_invariant_amended [1, 2, 3] [6] 6 none (Data.init [1, 2, 3])
    (by decide) (by decide)

/-- The derived extreme-partition probabilities, in closed form. -/
theorem extreme_prob_formula (s : Data)
    (hov : s.empirical_prob_override = none)
    (hm : s.extreme_data.length ≠ 0) :
    s.extreme_prob = (List.range s.extreme_data.length).map
      (fun i : ℕ => ((i : ℚ) + 1) / ((s.period_length : ℚ) + 1)) := by
  unfold Data.extreme_prob
  simp only [hov, if_neg hm]

/-- The probability assigned to the last (highest-rank) extreme record. -/
theorem extreme_prob_last (s : Data)
    (hov : s.empirical_prob_override = none)
    (hm : s.extreme_data.length ≠ 0) :
    s.extreme_prob.getLastD 0 =
      (s.extreme_data.length : ℚ) / ((s.period_length : ℚ) + 1) := by
  rw [extreme_prob_formula s hov hm, getLastD_range_map _ _ hm]
  congr 1
  have h1 : 1 ≤ s.extreme_data.length := Nat.pos_of_ne_zero hm
  push_cast [h1]
  ring

/-- The derived ordinary-partition probabilities, in closed form, when
the extreme partition is non-empty. -/
theorem ordinary_prob_formula (s : Data)
    (hov : s.empirical_prob_override = none)
    (hm : s.extreme_data.length ≠ 0) :
    s.ordinary_prob = (List.range s.ordinary_data.length).map
      (fun j : ℕ =>
        (s.extreme_data.length : ℚ) / ((s.period_length : ℚ) + 1) +
        (1 - (s.extreme_data.length : ℚ) / ((s.period_length : ℚ) + 1)) *
          ((j : ℚ) + 1) / ((s.ordinary_data.length : ℚ) + 1)) := by
  unfold Data.ordinary_prob
  simp only [hov, if_neg hm, extreme_prob_last s hov hm]

/-- C2: with no probability override and a non-empty extreme partition of
length `m`, the derived extreme-partition probability at 0-based rank `i`
is `(i+1) / (period_length+1)`; the last extreme probability is
`m / (period_length+1)`; and the derived ordinary-partition probability
at 0-based rank `j` is `ep_last + (1 - ep_last) * (j+1) / (len(ordinary)+1)`
with `ep_last = m / (period_length+1)`. -/
theorem C2_derived_partition_probs (s : Data)
    (hov : s.empirical_prob_override = none)
    (hm : s.extreme_data.length ≠ 0) :
    (∀ i < s.extreme_data.length, s.extreme_prob.getD i 0 =
      ((i : ℚ) + 1) / ((s.period_length : ℚ) + 1)) ∧
    s.extreme_prob.getLastD 0 =
      (s.extreme_data.length : ℚ) / ((s.period_length : ℚ) + 1) ∧
    (∀ j < s.ordinary_data.length, s.ordinary_prob.getD j 0 =
      (s.extreme_data.length : ℚ) / ((s.period_length : ℚ) + 1) +
        (1 - (s.extreme_data.length : ℚ) / ((s.period_length : ℚ) + 1)) *
          ((j : ℚ) + 1) / ((s.ordinary_data.length : ℚ) + 1)) :=
  ⟨fun i hi => by
      rw [extreme_prob_formula s hov hm, getD_range_map _ _ _ hi],
    extreme_prob_last s hov hm,
    fun j hj => by
      rw [ordinary_prob_formula s hov hm, getD_range_map _ _ _ hj]⟩

/-- Witness for C2 at the fixture record set `dEx`
(`Data([1, 2, 3])` with `set_history_data([6], 6)`). -/
theorem C2_witness :
    (∀ i < dEx.extreme_data.length, dEx.extreme_prob.getD i 0 =
      ((i : ℚ) + 1) / ((dEx.period_length : ℚ) + 1)) ∧
    dEx.extreme_prob.getLastD 0 =
      (dEx.extreme_data.length : ℚ) / ((dEx.period_length : ℚ) + 1) ∧
    (∀ j < dEx.ordinary_data.length, dEx.ordinary_prob.getD j 0 =
      (dEx.extreme_data.length : ℚ) / ((dEx.period_length : ℚ) + 1) +
        (1 - (dEx.extreme_data.length : ℚ) / ((dEx.period_length : ℚ) + 1)) *
          ((j : ℚ) + 1) / ((dEx.ordinary_data.length : ℚ) + 1)) :=
  C2_derived_partition_probs dEx (by decide) (by decide)

/-- C10: with an empty extreme partition and no override, the derived
ordinary (hence full) probability array has exactly `period_length`
entries with values `(i+1)/(period_length+1)`; it has one entry per
record exactly when `period_length` equals the data length; and attaching
an empty historical batch with a period length above the observed count
succeeds and yields more probabilities than records. -/
theorem C10_empty_extreme_prob_count (s : Data)
    (h0 : s.extreme_data.length = 0)
    (hov : s.empirical_prob_override = none)
    (obs : List ℚ) (pl : ℕ) (hpl : obs.length < pl) :
    s.ordinary_prob.length = s.period_length ∧
    (∀ i < s.period_length, s.ordinary_prob.getD i 0 =
      ((i : ℚ) + 1) / ((s.period_length : ℚ) + 1)) ∧
    (s.empirical_prob.length = s.data.length ↔
      s.period_length = s.data.length) ∧
    ((Data.init obs).set_history_data [] pl).2 = none ∧
    ((Data.init obs).set_history_data [] pl).1.data.length <
      ((Data.init obs).set_history_data [] pl).1.empirical_prob.length := by
  have hop : s.ordinary_prob = (List.range s.period_length).map
      (fun i : ℕ => ((i : ℚ) + 1) / ((s.period_length : ℚ) + 1)) := by
    unfold Data.ordinary_prob
    simp only [hov, if_pos h0]
  have hep0 : s.extreme_prob = [] := by
    unfold Data.extreme_prob
    simp only [hov, if_pos h0]
  have hepl : s.empirical_prob.length = s.period_length := by
    unfold Data.empirical_prob
    simp only [hov, hep0, List.nil_append, hop, List.length_map,
      List.length_range]
  have hnl : ¬ pl < obs.length := by omega
  have hcall : (Data.init obs).set_history_data [] pl =
      ({ observed_data := obs, data := sortDesc obs, extreme_data := [],
         ordinary_data := sortDesc obs, period_length := pl,
         empirical_prob_override := none }, none) := by
    unfold Data.set_history_data Data.init
    simp only [List.length_nil, Nat.add_zero, Option.getD_none,
      List.append_nil, List.take_zero, List.drop_zero]
    rw [if_neg hnl]
    simp
  refine ⟨by rw [hop]; simp, fun i hi => by rw [hop, getD_range_map _ _ _ hi],
    by rw [hepl], ?_, ?_⟩
  · rw [hcall]
  · rw [hcall]
    simp only [Data.empirical_prob, Data.extreme_prob, Data.ordinary_prob,
      List.length_nil, if_pos rfl, List.nil_append, List.length_map,
      List.length_range, sortDesc_length]
    simp
    omega

/-- Witness for C10 at `Data([1, 2, 3])` (empty extreme partition), with
the empty-batch scenario run on `Data([1, 2])` and period length 5. -/
theorem C10_witness :
    (Data.init [1, 2, 3]).ordinary_prob.length =
      (Data.init [1, 2, 3]).period_length ∧
    (∀ i < (Data.init [1, 2, 3]).period_length,
      (Data.init [1, 2, 3]).ordinary_prob.getD i 0 =
      ((i : ℚ) + 1) / (((Data.init [1, 2, 3]).period_length : ℚ) + 1)) ∧
    ((Data.init [1, 2, 3]).empirical_prob.length =
        (Data.init [1, 2, 3]).data.length ↔
      (Data.init [1, 2, 3]).period_length =
        (Data.init [1, 2, 3]).data.length) ∧
    ((Data.init [1, 2]).set_history_data [] 5).2 = none ∧
    ((Data.init [1, 2]).set_history_data [] 5).1.data.length <
      ((Data.init [1, 2]).set_history_data [] 5).1.empirical_prob.length :=
  C10_empty_extreme_prob_count (Data.init [1, 2, 3]) (by decide) (by decide)
    [1, 2] 5 (by decide)

/-- The weight of §4.3 of the specification, written from its words:
`r = (period_length - len(extreme)) / len(ordinary)`. -/
noncomputable def specWeightedR (s : Data) : ℝ :=
  ((s.period_length : ℝ) - s.extreme_data.length) / s.ordinary_data.length

/-- The weighted mean of §4.3 of the specification, written from its
words: `mean = (sum(extreme) + r * sum(ordinary)) / period_length`. -/
noncomputable def specWeightedMean (s : Data) : ℝ :=
  (sumR s.extreme_data + specWeightedR s * sumR s.ordinary_data) /
    s.period_length

/-- The weighted coefficient of variation of §4.3 of the specification,
written from its words: `cv = sqrt((sum((x-mean)^2 for x in extreme) +
r * sum((x-mean)^2 for x in ordinary)) / (period_length - 1)) / mean`. -/
noncomputable def specWeightedCv (s : Data) : ℝ :=
  Real.sqrt ((sumCentered s.extreme_data (specWeightedMean s) 2 +
      specWeightedR s * sumCentered s.ordinary_data (specWeightedMean s) 2) /
    ((s.period_length : ℝ) - 1)) / specWeightedMean s

/-- The weighted skewness of §4.3 of the specification, written from its
words: `cs = period_length * (sum((x-mean)^3 for x in extreme) +
r * sum((x-mean)^3 for x in ordinary)) / ((period_length-1) *
(period_length-2) * mean^3 * cv^3)`. -/
noncomputable def specWeightedCs (s : Data) : ℝ :=
  (s.period_length : ℝ) * (sumCentered s.extreme_data (specWeightedMean s) 3 +
      specWeightedR s * sumCentered s.ordinary_data (specWeightedMean s) 3) /
    (((s.period_length : ℝ) - 1) * ((s.period_length : ℝ) - 2) *
      specWeightedMean s ^ 3 * specWeightedCv s ^ 3)

/-- C1: for every record set with a non-empty extreme partition (the
probability override, which `get_moments` never consults, may equally be
absent), the moment estimator returns exactly the period-weighted
formulas of the specification for mean, cv and cs. -/
theorem C1_get_moments_weighted_formulas (s : Data)
    (hm : s.extreme_data.length ≠ 0)
    (_hov : s.empirical_prob_override = none) :
    get_moments s = (specWeightedMean s, specWeightedCv s, specWeightedCs s) := by
  unfold get_moments specWeightedCs specWeightedCv specWeightedMean
    specWeightedR
  rw [if_neg hm]

/-- Witness for C1 at the fixture record set `dEx`
(`Data([1, 2, 3])` with `set_history_data([6], 6)`). -/
theorem C1_witness :
    get_moments dEx = (specWeightedMean dEx, specWeightedCv dEx, specWeightedCs dEx) :=
  C1_get_moments_weighted_formulas dEx (by decide) (by decide)

/-- C5: with no probability override, and with the extreme-partition size
bounded by the (finite) period length — the reachable-state bound that
construction establishes and every successful `set_history_data` call
re-establishes, proved by the final two conjuncts — the full derived
empirical probability array is non-decreasing from first to last entry
and every entry lies strictly between 0 and 1. -/
theorem C5_empirical_prob_monotone_unit (s t : Data) (obs hist : List ℚ)
    (pl : ℕ) (en : Option ℕ)
    (hov : s.empirical_prob_override = none)
    (hmp : s.extreme_data.length ≤ s.period_length)
    (hts : (t.set_history_data hist pl en).2 = none) :
    (s.empirical_prob.Pairwise (· ≤ ·) ∧
      ∀ p ∈ s.empirical_prob, 0 < p ∧ p < 1) ∧
    (Data.init obs).extreme_data.length ≤ (Data.init obs).period_length ∧
    (t.set_history_data hist pl en).1.extreme_data.length ≤
      (t.set_history_data hist pl en).1.period_length := by
  have hden : (0 : ℚ) < (s.period_length : ℚ) + 1 := by positivity
  refine ⟨?_, by simp [Data.init], ?_⟩
  · have hfull : s.empirical_prob = s.extreme_prob ++ s.ordinary_prob := by
      unfold Data.empirical_prob
      simp only [hov]
    by_cases hm : s.extreme_data.length = 0
    · have hep : s.extreme_prob = [] := by
        unfold Data.extreme_prob
        simp only [hov, if_pos hm]
      have hop : s.ordinary_prob = (List.range s.period_length).map
          (fun i : ℕ => ((i : ℚ) + 1) / ((s.period_length : ℚ) + 1)) := by
        unfold Data.ordinary_prob
        simp only [hov, if_pos hm]
      rw [hfull, hep, hop, List.nil_append]
      constructor
      · refine (List.pairwise_lt_range _).map _ (fun a b hab => ?_)
        rw [div_le_div_iff_of_pos_right hden]
        have hab' : (a : ℚ) < b := by exact_mod_cast hab
        linarith
      · intro p hp
        obtain ⟨i, hi, rfl⟩ := List.mem_map.mp hp
        rw [List.mem_range] at hi
        have hic : (i : ℚ) < (s.period_length : ℚ) := by exact_mod_cast hi
        exact ⟨by positivity, by rw [div_lt_one hden]; linarith⟩
    · have hm1 : (1 : ℚ) ≤ (s.extreme_data.length : ℚ) := by
        exact_mod_cast Nat.pos_of_ne_zero hm
      have hmc : (s.extreme_data.length : ℚ) ≤ (s.period_length : ℚ) := by
        exact_mod_cast hmp
      have hlo : (0 : ℚ) < (s.ordinary_data.length : ℚ) + 1 := by positivity
      have hmp0 : 0 < (s.extreme_data.length : ℚ) /
          ((s.period_length : ℚ) + 1) := div_pos (by linarith) hden
      have hmp1 : (s.extreme_data.length : ℚ) /
          ((s.period_length : ℚ) + 1) < 1 := by
        rw [div_lt_one hden]
        linarith
      rw [hfull, extreme_prob_formula s hov hm, ordinary_prob_formula s hov hm]
      have hgn : ∀ j : ℕ, 0 ≤
          (1 - (s.extreme_data.length : ℚ) / ((s.period_length : ℚ) + 1)) *
            ((j : ℚ) + 1) / ((s.ordinary_data.length : ℚ) + 1) := by
        intro j
        apply div_nonneg _ hlo.le
        apply mul_nonneg (by linarith)
        positivity
      constructor
      · rw [List.pairwise_append]
        refine ⟨(List.pairwise_lt_range _).map _ (fun a b hab => ?_),
          (List.pairwise_lt_range _).map _ (fun a b hab => ?_), ?_⟩
        · rw [div_le_div_iff_of_pos_right hden]
          have hab' : (a : ℚ) < b := by exact_mod_cast hab
          linarith
        · have hab' : (a : ℚ) ≤ b := by exact_mod_cast hab.le
          have hstep : (1 - (s.extreme_data.length : ℚ) /
                ((s.period_length : ℚ) + 1)) * ((a : ℚ) + 1) /
                ((s.ordinary_data.length : ℚ) + 1) ≤
              (1 - (s.extreme_data.length : ℚ) /
                ((s.period_length : ℚ) + 1)) * ((b : ℚ) + 1) /
                ((s.ordinary_data.length : ℚ) + 1) := by
            rw [div_le_div_iff_of_pos_right hlo]
            exact mul_le_mul_of_nonneg_left (by linarith) (by linarith)
          linarith
        · intro x hx y hy
          obtain ⟨i, hi, rfl⟩ := List.mem_map.mp hx
          obtain ⟨j, hj, rfl⟩ := List.mem_map.mp hy
          rw [List.mem_range] at hi
          have hi1 : (i : ℚ) + 1 ≤ (s.extreme_data.length : ℚ) := by
            exact_mod_cast Nat.succ_le_of_lt hi
          have hx_le : ((i : ℚ) + 1) / ((s.period_length : ℚ) + 1) ≤
              (s.extreme_data.length : ℚ) / ((s.period_length : ℚ) + 1) := by
            rw [div_le_div_iff_of_pos_right hden]
            exact hi1
          have := hgn j
          linarith
      · intro p hp
        rw [List.mem_append] at hp
        rcases hp with hp | hp
        · obtain ⟨i, hi, rfl⟩ := List.mem_map.mp hp
          rw [List.mem_range] at hi
          have hi1 : (i : ℚ) + 1 ≤ (s.extreme_data.length : ℚ) := by
            exact_mod_cast Nat.succ_le_of_lt hi
          exact ⟨by positivity, by rw [div_lt_one hden]; linarith⟩
        · obtain ⟨j, hj, rfl⟩ := List.mem_map.mp hp
          rw [List.mem_range] at hj
          have hj1 : (j : ℚ) + 1 ≤ (s.ordinary_data.length : ℚ) := by
            exact_mod_cast Nat.succ_le_of_lt hj
          have h1mp : 0 < 1 - (s.extreme_data.length : ℚ) /
              ((s.period_length : ℚ) + 1) := by linarith
          refine ⟨by have := hgn j; linarith, ?_⟩
          have hfrac : (1 - (s.extreme_data.length : ℚ) /
                ((s.period_length : ℚ) + 1)) * ((j : ℚ) + 1) /
                ((s.ordinary_data.length : ℚ) + 1) <
              1 - (s.extreme_data.length : ℚ) /
                ((s.period_length : ℚ) + 1) := by
            rw [div_lt_iff₀ hlo]
            have hlt : (j : ℚ) + 1 < (s.ordinary_data.length : ℚ) + 1 := by
              linarith
            exact mul_lt_mul_of_pos_left hlt h1mp
          linarith
  · by_cases h1 : pl < t.observed_data.length + hist.length
    · simp [Data.set_history_data, h1] at hts
    · by_cases h2 : en.getD hist.length < hist.length
      · simp [Data.set_history_data, h1, h2] at hts
      · simp only [Data.set_history_data, if_neg h1, if_neg h2]
        show ((sortDesc (t.observed_data ++ hist)).take
          (en.getD hist.length)).length ≤ pl
        rw [List.length_take, sortDesc_length, List.length_append]
        omega

/-- Witness for C5 at the fixture record set `dEx`, with the
invariant-re-establishment conjuncts run on `Data([1, 2, 3])` and the
successful call `set_history_data([6], 6)`. -/
theorem C5_witness :
    (dEx.empirical_prob.Pairwise (· ≤ ·) ∧
      ∀ p ∈ dEx.empirical_prob, 0 < p ∧ p < 1) ∧
    (Data.init [1, 2, 3]).extreme_data.length ≤
      (Data.init [1, 2, 3]).period_length ∧
    ((Data.init [1, 2, 3]).set_history_data [6] 6).1.extreme_data.length ≤
      ((Data.init [1, 2, 3]).set_history_data [6] 6).1.period_length :=
  C5_empirical_prob_monotone_unit dEx (Data.init [1, 2, 3]) [1, 2, 3] [6] 6
    none (by decide) (by decide) (by decide)

end Pearson3Curve
